import Mathlib

/-!
# GoAstGateway: session registry, call-state machine and group routing

A shallow embedding of `src/main.go`.  Go values are translated as follows.

* `int` session states are `Int`; the three named constants keep their values.
* A `*websocket.Conn` is the list of frames handed to `WriteMessage`, in order.
* A buffered channel is its capacity together with the frames it holds.
* The registry map is an association list read by its first matching key.
* A `*ClientSession` reached through the registry is the entry stored under its
  extension; mutating the session rewrites that entry.
* Blocking `select` statements take the branch that fired as an argument.
* Library code (`net`, `regexp`, `encoding/json`) is a parameter.
-/

namespace GoAstGateway

/-! ## Constants and data -/

def StateIdle : Int := 0

def StateRinging : Int := 1

def StateTalking : Int := 2

/-- Frame type of a text frame (`websocket.TextMessage`). -/
def TextMessage : Int := 1

/-- Frame type of a binary frame (`websocket.BinaryMessage`). -/
def BinaryMessage : Int := 2

/-- One frame as passed to `WriteMessage` or returned by `ReadMessage`. -/
structure Frame where
  messageType : Int
  payload : String
deriving DecidableEq, Repr

/-- A websocket connection, seen from the writer side. -/
structure WebsocketConn where
  id : Nat
  written : List Frame
deriving DecidableEq, Repr

/-- `conn.WriteMessage(mt, payload)`: the frame is appended to what was written. -/
def WebsocketConn.WriteMessage (c : WebsocketConn) (mt : Int) (payload : String) :
    WebsocketConn :=
  { c with written := c.written ++ [⟨mt, payload⟩] }

/-- A Go channel: `make(chan T, cap)` with the elements currently buffered. -/
structure Chan (α : Type) where
  cap : Nat
  buf : List α
deriving DecidableEq, Repr

/-- `make(chan T, n)`. -/
def Chan.make (α : Type) (n : Nat) : Chan α :=
  { cap := n, buf := [] }

/-- Non-blocking send on a buffered channel:
`select { case ch <- x: default: }` with no receiver waiting. -/
def Chan.trySend {α : Type} (c : Chan α) (x : α) : Chan α :=
  if c.buf.length < c.cap then { c with buf := c.buf ++ [x] } else c

structure Config where
  AsteriskFormat : String
  ExtensionVariable : String
  ExtenSearchPattern : String
  AllowedOrigins : List String
  AllowedAsteriskIPs : List String
  AllowedBrowserIPs : List String
deriving DecidableEq, Repr

structure GroupDef where
  Strategy : String
  Members : List String
  Timeout : Int
deriving DecidableEq, Repr

structure AsteriskJSONMessage where
  Event : String
  ConnectionID : String
  ChannelVariables : List (String × String)
deriving DecidableEq, Repr

structure ClientSession where
  Extension : String
  Conn : WebsocketConn
  AudioFromBrowser : Chan String
  ControlChan : Chan String
  State : Int
deriving DecidableEq, Repr

/-! ## Session state machine -/

/-- `func (s *ClientSession) TrySetState(newState int) bool`: the returned flag
and the session afterwards. -/
def ClientSession.TrySetState (s : ClientSession) (newState : Int) : Bool × ClientSession :=
  if s.State ≠ StateIdle ∧ s.State ≠ StateRinging then (false, s)
  else if s.State = StateRinging ∧ newState = StateRinging then (false, s)
  else (true, { s with State := newState })

/-- `func (s *ClientSession) ResetState()`. -/
def ClientSession.ResetState (s : ClientSession) : ClientSession :=
  { s with State := StateIdle }

/-- `func (s *ClientSession) GetState() int`. -/
def ClientSession.GetState (s : ClientSession) : Int :=
  s.State

/-- `s.Conn.WriteMessage(websocket.TextMessage, []byte(text))` on a session. -/
def ClientSession.writeText (s : ClientSession) (text : String) : ClientSession :=
  { s with Conn := s.Conn.WriteMessage TextMessage text }

/-! ## Origin check of the browser upgrader -/

/-- The `for _, allowed := range appConfig.AllowedOrigins` loop of `CheckOrigin`. -/
def originLoop (origin : String) : List String → Bool
  | [] => false
  | allowed :: rest => if origin = allowed then true else originLoop origin rest

/-- `browserUpgrader.CheckOrigin`; `origin` is `r.Header.Get("Origin")`, which is
the empty string when the header is absent. -/
def browserUpgrader_CheckOrigin (appConfig : Config) (origin : String) : Bool :=
  if origin = "" then false
  else originLoop origin appConfig.AllowedOrigins

/-! ## Registry -/

/-- The `sessions map[string]*ClientSession` of the registry. -/
structure ClientRegistry where
  sessions : List (String × ClientSession)
deriving DecidableEq, Repr

/-- The global `registry` at start-up: an empty map. -/
def registry : ClientRegistry :=
  { sessions := [] }

/-- Map read `m[k]`. -/
def mapGet : List (String × ClientSession) → String → Option ClientSession
  | [], _ => none
  | (k, v) :: rest, ext => if k = ext then some v else mapGet rest ext

/-- Map delete `delete(m, k)`. -/
def mapDelete (m : List (String × ClientSession)) (ext : String) :
    List (String × ClientSession) :=
  m.filter (fun e => decide (e.1 ≠ ext))

/-- Map write `m[k] = v`. -/
def mapSet (m : List (String × ClientSession)) (ext : String) (v : ClientSession) :
    List (String × ClientSession) :=
  (ext, v) :: mapDelete m ext

/-- `func (r *ClientRegistry) Get(ext string) (*ClientSession, bool)`. -/
def ClientRegistry.Get (r : ClientRegistry) (ext : String) : Option ClientSession :=
  mapGet r.sessions ext

/-- `func (r *ClientRegistry) Register(ext string, conn *websocket.Conn)`:
the registry afterwards and the returned session or error. -/
def ClientRegistry.Register (r : ClientRegistry) (ext : String) (conn : WebsocketConn) :
    ClientRegistry × Except String ClientSession :=
  match mapGet r.sessions ext with
  | some _ => (r, Except.error "BUSY")
  | none =>
    let session : ClientSession :=
      { Extension := ext
        Conn := conn
        AudioFromBrowser := Chan.make String 100
        ControlChan := Chan.make String 0
        State := StateIdle }
    ({ sessions := mapSet r.sessions ext session }, Except.ok session)

/-- `func (r *ClientRegistry) Unregister(ext string)`. -/
def ClientRegistry.Unregister (r : ClientRegistry) (ext : String) : ClientRegistry :=
  match mapGet r.sessions ext with
  | some _ => { sessions := mapDelete r.sessions ext }
  | none => r

/-- Overwrite the value of the first entry whose key is `ext`. -/
def mapStore : List (String × ClientSession) → String → ClientSession →
    List (String × ClientSession)
  | [], _, _ => []
  | (k, v) :: rest, ext, s =>
    if k = ext then (k, s) :: rest else (k, v) :: mapStore rest ext s

/-- A mutation through a `*ClientSession` obtained from the registry: the entry
that `Get(ext)` reads now holds `s`. -/
def ClientRegistry.store (r : ClientRegistry) (ext : String) (s : ClientSession) :
    ClientRegistry :=
  { sessions := mapStore r.sessions ext s }

/-- One call on the registry. -/
inductive RegistryCall where
  | register (ext : String) (conn : WebsocketConn)
  | unregister (ext : String)
deriving DecidableEq, Repr

/-- The registry after one call. -/
def ClientRegistry.call (r : ClientRegistry) : RegistryCall → ClientRegistry
  | RegistryCall.register ext conn => (r.Register ext conn).1
  | RegistryCall.unregister ext => r.Unregister ext

/-- The registry after a sequence of calls. -/
def ClientRegistry.calls (r : ClientRegistry) (cs : List RegistryCall) : ClientRegistry :=
  cs.foldl ClientRegistry.call r

/-- How many sessions the registry holds for `ext`. -/
def ClientRegistry.count (r : ClientRegistry) (ext : String) : Nat :=
  (r.sessions.filter (fun e => decide (e.1 = ext))).length

/-! ## Browser read loop -/

/-- One iteration of the read loop of `handlePhoneConnection` on a frame
`(mt, message)` read without error.  `receiverWaiting` says whether a router is
blocked on `session.ControlChan`, which decides the non-blocking send on that
unbuffered channel.  Returns the session afterwards and the control token
handed over, if any. -/
def handlePhoneMessage (session : ClientSession) (mt : Int) (message : String)
    (receiverWaiting : Bool) : ClientSession × Option String :=
  let delivered : Option String :=
    if mt = TextMessage then (if receiverWaiting then some message else none) else none
  let session :=
    if mt = BinaryMessage then
      (if session.GetState = StateTalking then
        { session with AudioFromBrowser := session.AudioFromBrowser.trySend message }
      else session)
    else session
  (session, delivered)

/-! ## IP allow-list -/

/-- `strings.HasPrefix` on characters. -/
def hasPrefixChars : List Char → List Char → Bool
  | _, [] => true
  | [], _ :: _ => false
  | c :: s, d :: sub => if c = d then hasPrefixChars s sub else false

/-- `strings.Contains` on characters. -/
def containsChars : List Char → List Char → Bool
  | [], sub => hasPrefixChars [] sub
  | c :: s, sub => hasPrefixChars (c :: s) sub || containsChars s sub

/-- `strings.Contains(s, substr)`. -/
def stringsContains (s substr : String) : Bool :=
  containsChars s.toList substr.toList

/-- The functions of package `net` used by `checkIP`. -/
structure NetLib (IP IPNet : Type) where
  SplitHostPort : String → Option (String × String)
  ParseIP : String → Option IP
  ParseCIDR : String → Option (IP × IPNet)
  Equal : IP → IP → Bool
  Contains : IPNet → IP → Bool

/-- The `for _, allowed := range allowedList` loop of `checkIP`. -/
def checkIPLoop {IP IPNet : Type} (net : NetLib IP IPNet) (targetIP : IP) :
    List String → Bool
  | [] => false
  | allowed :: rest =>
    if stringsContains allowed "/" then
      match net.ParseCIDR allowed with
      | some (_, ipNet) =>
        if net.Contains ipNet targetIP then true else checkIPLoop net targetIP rest
      | none => checkIPLoop net targetIP rest
    else
      match net.ParseIP allowed with
      | some allowedIP =>
        if net.Equal allowedIP targetIP then true else checkIPLoop net targetIP rest
      | none => checkIPLoop net targetIP rest

/-- The host that `checkIP` parses: the first result of `net.SplitHostPort`, or
the whole address when that call returns an error. -/
def hostOf {IP IPNet : Type} (net : NetLib IP IPNet) (remoteAddr : String) : String :=
  match net.SplitHostPort remoteAddr with
  | some (host, _) => host
  | none => remoteAddr

/-- `func checkIP(remoteAddr string, allowedList []string) bool`. -/
def checkIP {IP IPNet : Type} (net : NetLib IP IPNet) (remoteAddr : String)
    (allowedList : List String) : Bool :=
  if allowedList.length = 0 then true
  else
    match net.ParseIP (hostOf net remoteAddr) with
    | none => false
    | some targetIP => checkIPLoop net targetIP allowedList

/-- An allow-list entry read as a single address: it has no `/` and parses. -/
def singleIPEntry {IP IPNet : Type} (net : NetLib IP IPNet) (allowed : String) (ip : IP) :
    Prop :=
  stringsContains allowed "/" = false ∧ net.ParseIP allowed = some ip

/-- An allow-list entry read as a block: it has a `/` and parses as one. -/
def cidrEntry {IP IPNet : Type} (net : NetLib IP IPNet) (allowed : String) (ipNet : IPNet) :
    Prop :=
  stringsContains allowed "/" = true ∧ ∃ ip, net.ParseCIDR allowed = some (ip, ipNet)

/-! ### A dotted-quad instance of the address library -/

/-- `strings.Split` on one separator character. -/
def splitOnChar (sep : Char) : List Char → List (List Char)
  | [] => [[]]
  | c :: rest =>
    if c = sep then [] :: splitOnChar sep rest
    else
      match splitOnChar sep rest with
      | [] => [[c]]
      | h :: t => (c :: h) :: t

/-- Value of a run of decimal digits read left to right. -/
def decimalValue : List Char → Nat → Option Nat
  | [], acc => some acc
  | c :: rest, acc =>
    if c.isDigit then decimalValue rest (10 * acc + (c.toNat - 48)) else none

/-- A decimal field of at most three digits without a leading zero. -/
def decimalField (cs : List Char) : Option Nat :=
  match cs with
  | [] => none
  | [c] => decimalValue [c] 0
  | c :: rest => if c = '0' ∨ 3 < (c :: rest).length then none else decimalValue (c :: rest) 0

/-- A dotted quad as a 32-bit number. -/
def dottedQuad (cs : List Char) : Option Nat :=
  match (splitOnChar '.' cs).map decimalField with
  | [some a, some b, some c, some d] =>
    if a ≤ 255 ∧ b ≤ 255 ∧ c ≤ 255 ∧ d ≤ 255 then
      some (((a * 256 + b) * 256 + c) * 256 + d)
    else none
  | _ => none

/-- An address block: the masked base address and the prefix length. -/
structure Block where
  base : Nat
  bits : Nat
deriving DecidableEq, Repr

/-- The leading `bits` bits of a 32-bit address. -/
def maskTo (bits ip : Nat) : Nat :=
  ip / 2 ^ (32 - bits)

/-- The address library restricted to dotted-quad addresses. -/
def dottedQuadNet : NetLib Nat Block where
  SplitHostPort := fun s =>
    match splitOnChar ':' s.toList with
    | [h, p] => some (String.mk h, String.mk p)
    | _ => none
  ParseIP := fun s => dottedQuad s.toList
  ParseCIDR := fun s =>
    match splitOnChar '/' s.toList with
    | [a, n] =>
      match dottedQuad a, decimalField n with
      | some ip, some bits =>
        if bits ≤ 32 then some (ip, { base := maskTo bits ip, bits := bits }) else none
      | _, _ => none
    | _ => none
  Equal := fun a b => decide (a = b)
  Contains := fun n ip => decide (maskTo n.bits ip = n.base)

/-! ## First frame of a call leg -/

/-- The functions of package `regexp` used on the first frame. -/
structure RegexpLib (Regexp : Type) where
  Compile : String → Option Regexp
  FindStringSubmatch : Regexp → String → List String

/-- A run-time fault that ends the handler. -/
inductive Fault where
  | nilPointerDereference
deriving DecidableEq, Repr

/-- What the handler knows after reading the first frame. -/
structure FirstFrame where
  targetExt : String
  isMediaStart : Bool
deriving DecidableEq, Repr

/-- Map read `m[k]` on `map[string]string`: the zero value when absent. -/
def lookupVariable : List (String × String) → String → String
  | [], _ => ""
  | (k, v) :: rest, key => if k = key then v else lookupVariable rest key

/-- Whether `key` is a key of the mapping. -/
def hasVariable : List (String × String) → String → Bool
  | [], _ => false
  | (k, _) :: rest, key => if k = key then true else hasVariable rest key

/-- `matches := r.FindStringSubmatch(s); if len(matches) >= 2 { targetExt = matches[1] }`
starting from `targetExt == ""`. -/
def captureGroupOne {Regexp : Type} (re : RegexpLib Regexp) (r : Regexp) (s : String) :
    String :=
  match re.FindStringSubmatch r s with
  | _ :: g :: _ => g
  | _ => ""

/-- The part of `handleAsteriskConnection` between reading the first frame and
the test `targetExt == ""`.  `unmarshal` is `json.Unmarshal` into an
`AsteriskJSONMessage`.  A method call on the nil `*regexp.Regexp` left by a
failed `regexp.Compile` is a fault. -/
def resolveFirstFrame {Regexp : Type} (appConfig : Config)
    (unmarshal : String → Option AsteriskJSONMessage) (re : RegexpLib Regexp)
    (msgStr : String) : Except Fault FirstFrame :=
  if appConfig.AsteriskFormat = "json" then
    match unmarshal msgStr with
    | some jsonMsg =>
      let isMediaStart := decide (jsonMsg.Event = "MEDIA_START")
      let targetExt := lookupVariable jsonMsg.ChannelVariables appConfig.ExtensionVariable
      if targetExt = "" then
        match re.Compile appConfig.ExtenSearchPattern with
        | none => Except.error Fault.nilPointerDereference
        | some r =>
          Except.ok
            { targetExt := captureGroupOne re r jsonMsg.ConnectionID
              isMediaStart := isMediaStart }
      else Except.ok { targetExt := targetExt, isMediaStart := isMediaStart }
    | none => Except.ok { targetExt := "", isMediaStart := false }
  else
    let isMediaStart := stringsContains msgStr "MEDIA_START"
    match re.Compile ("connection_id:" ++ appConfig.ExtenSearchPattern) with
    | none => Except.error Fault.nilPointerDereference
    | some r =>
      Except.ok { targetExt := captureGroupOne re r msgStr, isMediaStart := isMediaStart }

/-- The handler returns at `if targetExt == ""` without routing the call. -/
def droppedUnresolved (f : FirstFrame) : Bool :=
  decide (f.targetExt = "")

/-! ### A small instance of the regular-expression library

Patterns `L(\d+)R` with literal `L` and `R`. -/

/-- A compiled pattern: the literal text before and after the digit group. -/
structure DigitPattern where
  before : List Char
  after : List Char
deriving DecidableEq, Repr

/-- Characters with a meaning in a pattern. -/
def isMetaChar (c : Char) : Bool :=
  c ∈ ['\\', '.', '+', '*', '?', '(', ')', '|', '[', ']', '\x7b', '\x7d', '^', '$']

/-- The characters of the digit group `(\d+)`. -/
def digitGroup : List Char :=
  ['(', '\\', 'd', '+', ')']

/-- Split a pattern at its first digit group. -/
def splitAtGroup : List Char → Option (List Char × List Char)
  | [] => none
  | c :: rest =>
    if hasPrefixChars (c :: rest) digitGroup then some ([], (c :: rest).drop 5)
    else
      match splitAtGroup rest with
      | some (l, r) => some (c :: l, r)
      | none => none

/-- Compile a pattern of the supported shape. -/
def compileDigitPattern (p : String) : Option DigitPattern :=
  match splitAtGroup p.toList with
  | some (l, r) =>
    if l.any isMetaChar || r.any isMetaChar then none else some { before := l, after := r }
  | none => none

/-- Try the digit group with `n`, then fewer, digits, followed by `after`. -/
def matchDigits (after : List Char) (s : List Char) : Nat → Option (List Char)
  | 0 => none
  | n + 1 =>
    if hasPrefixChars (s.drop (n + 1)) after then some (s.take (n + 1))
    else matchDigits after s n

/-- Match the pattern at the start of `s`: the whole match and the group. -/
def matchHere (p : DigitPattern) (s : List Char) : Option (List Char × List Char) :=
  if hasPrefixChars s p.before then
    let t := s.drop p.before.length
    match matchDigits p.after t (t.takeWhile Char.isDigit).length with
    | some g => some (p.before ++ g ++ p.after, g)
    | none => none
  else none

/-- Leftmost match of the pattern in `s`. -/
def findDigitPattern (p : DigitPattern) : List Char → List String
  | [] =>
    match matchHere p [] with
    | some (w, g) => [String.mk w, String.mk g]
    | none => []
  | c :: rest =>
    match matchHere p (c :: rest) with
    | some (w, g) => [String.mk w, String.mk g]
    | none => findDigitPattern p rest

/-- The regular-expression library restricted to digit-group patterns. -/
def digitRegexp : RegexpLib DigitPattern where
  Compile := compileDigitPattern
  FindStringSubmatch := fun p s => findDigitPattern p s.toList

/-! ## Group calls: ring-all -/

/-- The first loop of `processRingAll`: every registered member is asked for
`TrySetState(StateRinging)`; those that accept are collected in order. -/
def ringAllCollect : List String → ClientRegistry → ClientRegistry × List String
  | [], r => (r, [])
  | ext :: rest, r =>
    match r.Get ext with
    | some sess =>
      let t := sess.TrySetState StateRinging
      let next := ringAllCollect rest (r.store ext t.2)
      if t.1 then (next.1, ext :: next.2) else next
    | none => ringAllCollect rest r

/-- Which branch of the outer `select` of a ring-all worker fired. -/
inductive WorkerWake where
  | control (cmd : String)
  | done
deriving DecidableEq, Repr

/-- Which branch of the inner `select` of a ring-all worker fired, after `ANSWER`. -/
inductive PublishWake where
  | accepted
  | done
deriving DecidableEq, Repr

/-- The worker goroutine of `processRingAll` for one rung session: the session
when the goroutine returns, and whether it handed itself over on `winnerChan`. -/
def ringAllWorker (s : ClientSession) (wake : WorkerWake) (publish : PublishWake) :
    ClientSession × Bool :=
  let s := s.writeText "RINGING"
  match wake with
  | WorkerWake.control cmd =>
    if cmd = "ANSWER" then
      match publish with
      | PublishWake.accepted => (s, true)
      | PublishWake.done => (s.ResetState.writeText "HANGUP", false)
    else if cmd = "HANGUP" then (s.ResetState, false)
    else (s, false)
  | WorkerWake.done => (s.ResetState.writeText "HANGUP", false)

/-- The text frame `HANGUP`. -/
def hangupFrame : Frame :=
  ⟨TextMessage, "HANGUP"⟩

/-- The text frame `RINGING`. -/
def ringingFrame : Frame :=
  ⟨TextMessage, "RINGING"⟩

/-! ## Group calls: sequential -/

/-- Which branch of the `select` of `processSequential` fired. -/
inductive WaitEvent where
  | control (cmd : String)
  | timeout
deriving DecidableEq, Repr

/-- State after one pass over the member list. -/
structure PassResult where
  registry : ClientRegistry
  waits : Nat
  winner : Option ClientSession
deriving DecidableEq, Repr

/-- One run of the inner loop `for _, ext := range conf.Members` of
`processSequential`.  `env k` is the outcome of the `k`-th wait of the call and
`n` counts the waits made so far. -/
def sequentialPass (env : Nat → WaitEvent) : List String → ClientRegistry → Nat → PassResult
  | [], r, n => { registry := r, waits := n, winner := none }
  | ext :: rest, r, n =>
    match r.Get ext with
    | none => sequentialPass env rest r n
    | some sess =>
      let t := sess.TrySetState StateRinging
      if t.1 = false then sequentialPass env rest (r.store ext t.2) n
      else
        let sess := t.2.writeText "RINGING"
        match env n with
        | WaitEvent.control cmd =>
          if cmd = "ANSWER" then
            { registry := r.store ext sess, waits := n + 1, winner := some sess }
          else if cmd = "HANGUP" then
            sequentialPass env rest (r.store ext sess.ResetState) (n + 1)
          else sequentialPass env rest (r.store ext sess) (n + 1)
        | WaitEvent.timeout =>
          sequentialPass env rest (r.store ext (sess.writeText "HANGUP").ResetState) (n + 1)

/-- `func processSequential(groupID string, conf GroupDef)`: the outer `for` runs
passes until one returns a winner; `fuel` bounds the number of passes. -/
def processSequential (env : Nat → WaitEvent) (conf : GroupDef) :
    Nat → ClientRegistry → Nat → Option (ClientRegistry × ClientSession)
  | 0, _, _ => none
  | fuel + 1, r, n =>
    let p := sequentialPass env conf.Members r n
    match p.winner with
    | some w => some (p.registry, w)
    | none => processSequential env conf fuel p.registry p.waits

/-- A freshly registered session, as `Register` builds it. -/
def idleSession (ext : String) (id : Nat) : ClientSession :=
  { Extension := ext
    Conn := { id := id, written := [] }
    AudioFromBrowser := Chan.make String 100
    ControlChan := Chan.make String 0
    State := StateIdle }

/-- Session `1001` in state Ringing. -/
def ringingSession : ClientSession :=
  { idleSession "1001" 1 with State := StateRinging }

/-- Session `1001` in state Talking with `q` in its audio queue. -/
def talkingWith (q : List String) : ClientSession :=
  { idleSession "1001" 1 with State := StateTalking, AudioFromBrowser := ⟨100, q⟩ }

/-- A registry holding idle sessions for `1001` and `1002`. -/
def twoIdle : ClientRegistry :=
  { sessions := [("1001", idleSession "1001" 1), ("1002", idleSession "1002" 2)] }

/-- Configuration of scenario S1 with the given framing and search pattern. -/
def scenarioConfig (format pattern : String) : Config :=
  { AsteriskFormat := format
    ExtensionVariable := "EXT"
    ExtenSearchPattern := pattern
    AllowedOrigins := []
    AllowedAsteriskIPs := []
    AllowedBrowserIPs := [] }

/-- The first frame of scenario S1 as a document, with the given variables. -/
def scenarioDoc (vars : List (String × String)) : AsteriskJSONMessage :=
  { Event := "MEDIA_START", ConnectionID := "x-1001-y", ChannelVariables := vars }

/-- Scenario S4: `1001` lets the call time out, `1002` answers. -/
def scenarioS4 : Nat → WaitEvent
  | 0 => WaitEvent.timeout
  | _ => WaitEvent.control "ANSWER"

/-- The browser of the first rung member sends the text `FOO`; later ones answer. -/
def strayToken : Nat → WaitEvent
  | 0 => WaitEvent.control "FOO"
  | _ => WaitEvent.control "ANSWER"

/-! ## Helper lemmas on the registry map -/

theorem mapGet_mapDelete_ne (m : List (String × ClientSession)) (ext e : String)
    (h : e ≠ ext) : mapGet (mapDelete m ext) e = mapGet m e := by
  induction m with
  | nil => rfl
  | cons p rest ih =>
    obtain ⟨k, v⟩ := p
    unfold mapDelete at ih ⊢
    by_cases hk : k = ext
    · have hne : k ≠ e := fun h' => h (h'.symm.trans hk)
      rw [List.filter_cons_of_neg (by simp [hk]), ih]
      simp [mapGet, hne]
    · rw [List.filter_cons_of_pos (by simp [hk])]
      by_cases hke : k = e
      · simp [mapGet, hke]
      · simp only [mapGet, hke, if_false]
        exact ih

theorem count_mapDelete_le (m : List (String × ClientSession)) (ext e : String) :
    (ClientRegistry.mk (mapDelete m ext)).count e ≤ (ClientRegistry.mk m).count e := by
  simp only [ClientRegistry.count, mapDelete, List.filter_filter]
  apply List.Sublist.length_le
  apply List.monotone_filter_right
  intro p hp
  simp only [Bool.and_eq_true, decide_eq_true_eq] at hp
  simpa using hp.1

theorem count_mapDelete_self (m : List (String × ClientSession)) (ext : String) :
    (ClientRegistry.mk (mapDelete m ext)).count ext = 0 := by
  simp only [ClientRegistry.count, mapDelete, List.filter_filter, List.length_eq_zero]
  rw [List.filter_eq_nil_iff]
  intro p _
  by_cases h : p.1 = ext <;> simp [h]

theorem count_Register_le_one (r : ClientRegistry) (ext : String) (conn : WebsocketConn)
    (h : ∀ e, r.count e ≤ 1) (e : String) : (r.Register ext conn).1.count e ≤ 1 := by
  unfold ClientRegistry.Register
  cases hg : mapGet r.sessions ext with
  | some s => exact h e
  | none =>
    simp only [mapSet]
    by_cases he : ext = e
    · subst he
      have h0 := count_mapDelete_self r.sessions ext
      simp only [ClientRegistry.count] at h0 ⊢
      simp [List.filter_cons, h0]
    · have h1 := count_mapDelete_le r.sessions ext e
      have h2 := h e
      simp only [ClientRegistry.count] at h1 h2 ⊢
      simp [List.filter_cons, he]
      omega

theorem count_Unregister_le_one (r : ClientRegistry) (ext : String)
    (h : ∀ e, r.count e ≤ 1) (e : String) : (r.Unregister ext).count e ≤ 1 := by
  unfold ClientRegistry.Unregister
  cases hg : mapGet r.sessions ext with
  | some s => exact le_trans (count_mapDelete_le r.sessions ext e) (h e)
  | none => exact h e

theorem count_calls_le_one (cs : List RegistryCall) (r : ClientRegistry)
    (h : ∀ e, r.count e ≤ 1) (e : String) : (r.calls cs).count e ≤ 1 := by
  induction cs generalizing r with
  | nil => exact h e
  | cons c rest ih =>
    simp only [ClientRegistry.calls, List.foldl_cons]
    apply ih
    intro e'
    cases c with
    | register ext conn => exact count_Register_le_one r ext conn h e'
    | unregister ext => exact count_Unregister_le_one r ext h e'

theorem originLoop_iff (origin : String) (l : List String) :
    originLoop origin l = true ↔ origin ∈ l := by
  induction l with
  | nil => simp [originLoop]
  | cons a rest ih =>
    by_cases h : origin = a
    · simp [originLoop, h]
    · simp [originLoop, h, ih]

theorem TrySetState_state (s : ClientSession) (new : Int)
    (h : (s.TrySetState new).1 = true) : (s.TrySetState new).2.State = new := by
  unfold ClientSession.TrySetState at h ⊢
  split_ifs at h ⊢
  rfl

theorem TrySetState_unchanged (s : ClientSession) (new : Int)
    (h : (s.TrySetState new).1 = false) : (s.TrySetState new).2 = s := by
  unfold ClientSession.TrySetState at h ⊢
  split_ifs at h ⊢
  · rfl
  · rfl

theorem TrySetState_changed (s : ClientSession) (new : Int)
    (h : (s.TrySetState new).1 = true) : (s.TrySetState new).2 = { s with State := new } := by
  unfold ClientSession.TrySetState at h ⊢
  split_ifs at h ⊢
  rfl

theorem mapStore_same (m : List (String × ClientSession)) (ext : String) (s : ClientSession)
    (h : mapGet m ext = some s) : mapStore m ext s = m := by
  induction m with
  | nil => rfl
  | cons p rest ih =>
    obtain ⟨k, v⟩ := p
    by_cases hk : k = ext
    · simp only [mapGet, hk, if_true, Option.some.injEq] at h
      simp [mapStore, hk, h]
    · simp only [mapGet, hk, if_false] at h
      simp [mapStore, hk, ih h]

theorem mapGet_mapStore_self (m : List (String × ClientSession)) (ext : String)
    (s0 s : ClientSession) (h : mapGet m ext = some s0) :
    mapGet (mapStore m ext s) ext = some s := by
  induction m with
  | nil => simp [mapGet] at h
  | cons p rest ih =>
    obtain ⟨k, v⟩ := p
    by_cases hk : k = ext
    · simp [mapStore, mapGet, hk]
    · simp only [mapGet, hk, if_false] at h
      simp [mapStore, mapGet, hk, ih h]

theorem mapGet_mapStore_ne (m : List (String × ClientSession)) (ext e : String)
    (s : ClientSession) (h : e ≠ ext) : mapGet (mapStore m ext s) e = mapGet m e := by
  induction m with
  | nil => rfl
  | cons p rest ih =>
    obtain ⟨k, v⟩ := p
    by_cases hk : k = ext
    · have hne : ¬ ext = e := fun h' => h h'.symm
      subst hk
      simp [mapStore, mapGet, hne]
    · by_cases hke : k = e
      · subst hke
        simp [mapStore, mapGet, hk]
      · simp [mapStore, mapGet, hk, hke, ih]

theorem Get_store_ne (r : ClientRegistry) (ext e : String) (s : ClientSession) (h : e ≠ ext) :
    (r.store ext s).Get e = r.Get e :=
  mapGet_mapStore_ne r.sessions ext e s h

theorem store_same (r : ClientRegistry) (ext : String) (s : ClientSession)
    (h : r.Get ext = some s) : r.store ext s = r := by
  cases r with
  | mk m => simp [ClientRegistry.store, mapStore_same m ext s h]

theorem checkIPLoop_iff {IP IPNet : Type} (net : NetLib IP IPNet) (targetIP : IP)
    (l : List String) :
    checkIPLoop net targetIP l = true ↔
      ∃ allowed ∈ l,
        (∃ ip, singleIPEntry net allowed ip ∧ net.Equal ip targetIP = true) ∨
        (∃ ipNet, cidrEntry net allowed ipNet ∧ net.Contains ipNet targetIP = true) := by
  induction l with
  | nil => simp [checkIPLoop]
  | cons a rest ih =>
    simp only [List.mem_cons, exists_eq_or_imp]
    rw [← ih, checkIPLoop]
    by_cases hs : stringsContains a "/" = true
    · simp only [hs, if_true, singleIPEntry, cidrEntry]
      cases hc : net.ParseCIDR a with
      | none => simp
      | some p =>
        obtain ⟨ip0, n0⟩ := p
        by_cases hcont : net.Contains n0 targetIP = true
        · simp [hcont]
        · simp [hcont]
    · have hs' : stringsContains a "/" = false := by simpa using hs
      simp only [hs', singleIPEntry, cidrEntry]
      cases hp : net.ParseIP a with
      | none => simp
      | some ip0 =>
        by_cases heq : net.Equal ip0 targetIP = true
        · simp [heq]
        · simp [heq]

theorem sequentialPass_untouched (env : Nat → WaitEvent) (members : List String) (e : String)
    (he : e ∉ members) (r : ClientRegistry) (n : Nat) :
    (sequentialPass env members r n).registry.Get e = r.Get e := by
  induction members generalizing r n with
  | nil => rfl
  | cons ext rest ih =>
    have hne : e ≠ ext := fun h => he (by simp [h])
    have hr : e ∉ rest := fun h => he (by simp [h])
    unfold sequentialPass
    cases hg : r.Get ext with
    | none => exact ih hr r n
    | some sess =>
      simp only
      split_ifs with h1
      · rw [ih hr, Get_store_ne _ _ _ _ hne]
      · cases hev : env n with
        | timeout =>
          simp only
          rw [ih hr, Get_store_ne _ _ _ _ hne]
        | control cmd =>
          simp only
          split_ifs
          · exact Get_store_ne _ _ _ _ hne
          · rw [ih hr, Get_store_ne _ _ _ _ hne]
          · rw [ih hr, Get_store_ne _ _ _ _ hne]

theorem sequentialPass_winner_ringing (env : Nat → WaitEvent) (members : List String)
    (r : ClientRegistry) (n : Nat) (w : ClientSession)
    (h : (sequentialPass env members r n).winner = some w) : w.State = StateRinging := by
  induction members generalizing r n with
  | nil => simp [sequentialPass] at h
  | cons ext rest ih =>
    unfold sequentialPass at h
    cases hg : r.Get ext with
    | none =>
      rw [hg] at h
      exact ih r n h
    | some sess =>
      rw [hg] at h
      simp only at h
      split_ifs at h with h1
      · exact ih _ _ h
      · cases hev : env n with
        | timeout =>
          rw [hev] at h
          exact ih _ _ h
        | control cmd =>
          rw [hev] at h
          simp only at h
          split_ifs at h
          · simp only [Option.some.injEq] at h
            rw [← h]
            have ht : (sess.TrySetState StateRinging).1 = true := by simpa using h1
            have := (TrySetState_state sess StateRinging ht)
            simpa [ClientSession.writeText] using this
          · exact ih _ _ h
          · exact ih _ _ h

theorem captureGroupOne_eq {Regexp : Type} (re : RegexpLib Regexp) (r : Regexp) (s : String) :
    captureGroupOne re r s = (re.FindStringSubmatch r s).getD 1 "" := by
  unfold captureGroupOne
  cases h : re.FindStringSubmatch r s with
  | nil => rfl
  | cons a t =>
    cases t with
    | nil => rfl
    | cons g u => rfl

theorem lookupVariable_absent (vars : List (String × String)) (key : String)
    (h : hasVariable vars key = false) : lookupVariable vars key = "" := by
  induction vars with
  | nil => rfl
  | cons p rest ih =>
    obtain ⟨k, v⟩ := p
    by_cases hk : k = key
    · simp [hasVariable, hk] at h
    · simp only [hasVariable, hk, if_false] at h
      simp [lookupVariable, hk, ih h]

theorem Get_store_self (r : ClientRegistry) (ext : String) (s0 s : ClientSession)
    (h : r.Get ext = some s0) : (r.store ext s).Get ext = some s :=
  mapGet_mapStore_self r.sessions ext s0 s h

theorem TrySetState_ringing_fails (s : ClientSession) (h : s.State = StateRinging) :
    s.TrySetState StateRinging = (false, s) := by
  have hRI : StateRinging ≠ StateIdle := by decide
  simp [ClientSession.TrySetState, h, hRI]

theorem TrySetState_of_idle (s : ClientSession) (new : Int) (h : s.State = StateIdle) :
    (s.TrySetState new).1 = true := by
  have hIR : StateIdle ≠ StateRinging := by decide
  simp [ClientSession.TrySetState, h, hIR]

theorem ringAllCollect_keeps (members : List String) (e : String) (s : ClientSession)
    (hs : s.State = StateRinging) (r : ClientRegistry) (hg : r.Get e = some s) :
    (ringAllCollect members r).1.Get e = some s := by
  induction members generalizing r with
  | nil => exact hg
  | cons ext rest ih =>
    unfold ringAllCollect
    cases hx : r.Get ext with
    | none => exact ih r hg
    | some sess =>
      have hstep : (r.store ext (sess.TrySetState StateRinging).2).Get e = some s := by
        by_cases he : e = ext
        · subst he
          rw [hg] at hx
          cases hx
          rw [TrySetState_ringing_fails s hs, store_same r e s hg]
          exact hg
        · rw [Get_store_ne _ _ _ _ he]
          exact hg
      simp only
      split_ifs
      · exact ih _ hstep
      · exact ih _ hstep

theorem ringAllCollect_ringing (members : List String) (e : String) (r : ClientRegistry)
    (he : e ∈ (ringAllCollect members r).2) :
    ∃ m, (ringAllCollect members r).1.Get e = some m ∧ m.State = StateRinging := by
  induction members generalizing r with
  | nil => simp [ringAllCollect] at he
  | cons ext rest ih =>
    unfold ringAllCollect at he ⊢
    cases hx : r.Get ext with
    | none =>
      rw [hx] at he
      exact ih r he
    | some sess =>
      rw [hx] at he
      simp only at he ⊢
      by_cases ht : (sess.TrySetState StateRinging).1 = true
      · simp only [ht, if_true, List.mem_cons] at he ⊢
        rcases he with he | he
        · subst he
          have hst := TrySetState_state sess StateRinging ht
          exact ⟨_, ringAllCollect_keeps rest e _ hst _ (Get_store_self r e sess _ hx), hst⟩
        · exact ih _ he
      · simp only [ht] at he ⊢
        exact ih _ he

/-! ### The dotted-quad library rejects what the Go library rejects -/

theorem containsChars_slash (cs : List Char) :
    containsChars cs ['/'] = true ↔ '/' ∈ cs := by
  induction cs with
  | nil => simp [containsChars, hasPrefixChars]
  | cons c rest ih =>
    by_cases hc : c = '/'
    · simp [containsChars, hasPrefixChars, hc]
    · have hc' : ¬ '/' = c := fun h => hc h.symm
      simp [containsChars, hasPrefixChars, hc, hc', ih]

theorem stringsContains_slash (s : String) :
    stringsContains s "/" = true ↔ '/' ∈ s.toList :=
  containsChars_slash s.toList

theorem splitOnChar_absent (sep : Char) (cs : List Char) (h : sep ∉ cs) :
    splitOnChar sep cs = [cs] := by
  induction cs with
  | nil => rfl
  | cons c rest ih =>
    have hc : ¬ c = sep := fun h' => h (by simp [h'])
    have hr : sep ∉ rest := fun h' => h (by simp [h'])
    simp [splitOnChar, hc, ih hr]

theorem mem_splitOnChar (sep c : Char) (hne : c ≠ sep) (cs : List Char) (h : c ∈ cs) :
    ∃ f ∈ splitOnChar sep cs, c ∈ f := by
  induction cs with
  | nil => simp at h
  | cons d rest ih =>
    by_cases hd : d = sep
    · have hcd : c ≠ d := fun h' => hne (h'.trans hd)
      have hr : c ∈ rest := by
        rcases List.mem_cons.1 h with h' | h'
        · exact absurd h' hcd
        · exact h'
      obtain ⟨f, hf, hcf⟩ := ih hr
      exact ⟨f, by simp [splitOnChar, hd, hf], hcf⟩
    · cases hsp : splitOnChar sep rest with
      | nil =>
        refine ⟨[d], by simp [splitOnChar, hd, hsp], ?_⟩
        rcases List.mem_cons.1 h with h' | h'
        · simp [h']
        · obtain ⟨f, hf, _⟩ := ih h'
          rw [hsp] at hf
          simp at hf
      | cons x t =>
        rcases List.mem_cons.1 h with h' | h'
        · exact ⟨d :: x, by simp [splitOnChar, hd, hsp], by simp [h']⟩
        · obtain ⟨f, hf, hcf⟩ := ih h'
          rw [hsp] at hf
          rcases List.mem_cons.1 hf with hf' | hf'
          · exact ⟨d :: x, by simp [splitOnChar, hd, hsp], by simp [← hf', hcf]⟩
          · exact ⟨f, by simp [splitOnChar, hd, hsp, hf'], hcf⟩

theorem decimalValue_digits (cs : List Char) (acc v : Nat) (h : decimalValue cs acc = some v) :
    ∀ c ∈ cs, c.isDigit = true := by
  induction cs generalizing acc with
  | nil => simp
  | cons d rest ih =>
    by_cases hd : d.isDigit = true
    · simp only [decimalValue, hd, if_true] at h
      intro c hc
      rcases List.mem_cons.1 hc with h' | h'
      · rw [h']; exact hd
      · exact ih _ h c h'
    · simp [decimalValue, hd] at h

theorem decimalField_digits (cs : List Char) (v : Nat) (h : decimalField cs = some v) :
    ∀ c ∈ cs, c.isDigit = true := by
  unfold decimalField at h
  split at h
  · simp at h
  · exact decimalValue_digits _ _ _ h
  · split_ifs at h
    exact decimalValue_digits _ _ _ h

theorem dottedQuad_no_slash (cs : List Char) (ip : Nat) (h : dottedQuad cs = some ip) :
    '/' ∉ cs := by
  intro hmem
  obtain ⟨f, hf, hcf⟩ := mem_splitOnChar '.' '/' (by decide) cs hmem
  unfold dottedQuad at h
  split at h
  · rename_i a b c d heq
    have hfm : decimalField f ∈ (splitOnChar '.' cs).map decimalField :=
      List.mem_map_of_mem decimalField hf
    rw [heq] at hfm
    have hsome : ∃ v, decimalField f = some v := by
      simp only [List.mem_cons, List.mem_singleton, List.not_mem_nil, or_false] at hfm
      rcases hfm with h' | h' | h' | h'
      · exact ⟨_, h'⟩
      · exact ⟨_, h'⟩
      · exact ⟨_, h'⟩
      · exact ⟨_, h'⟩
    obtain ⟨v, hv⟩ := hsome
    have := decimalField_digits f v hv '/' hcf
    exact absurd this (by decide)
  · simp at h

theorem dottedQuadNet_ParseIP_slash (s : String) (h : stringsContains s "/" = true) :
    dottedQuadNet.ParseIP s = none := by
  have hm := (stringsContains_slash s).1 h
  cases hp : dottedQuadNet.ParseIP s with
  | none => rfl
  | some ip => exact absurd hm (dottedQuad_no_slash s.toList ip hp)

theorem dottedQuadNet_ParseCIDR_no_slash (s : String) (h : stringsContains s "/" = false) :
    dottedQuadNet.ParseCIDR s = none := by
  have hm : '/' ∉ s.toList := by
    intro hmem
    rw [(stringsContains_slash s).2 hmem] at h
    exact absurd h (by decide)
  have hsp : splitOnChar '/' s.data = [s.data] := splitOnChar_absent '/' s.data hm
  simp [dottedQuadNet, hsp]

theorem checkIPLoop_iff_plain {IP IPNet : Type} (net : NetLib IP IPNet)
    (hIP : ∀ s, stringsContains s "/" = true → net.ParseIP s = none)
    (hCIDR : ∀ s, stringsContains s "/" = false → net.ParseCIDR s = none)
    (targetIP : IP) (l : List String) :
    checkIPLoop net targetIP l = true ↔
      ∃ allowed ∈ l,
        (∃ ip, net.ParseIP allowed = some ip ∧ net.Equal ip targetIP = true) ∨
        (∃ ip ipNet, net.ParseCIDR allowed = some (ip, ipNet) ∧
          net.Contains ipNet targetIP = true) := by
  rw [checkIPLoop_iff]
  constructor
  · rintro ⟨a, ha, h⟩
    refine ⟨a, ha, ?_⟩
    rcases h with ⟨ip, hs, he⟩ | ⟨n, hs, hc⟩
    · exact Or.inl ⟨ip, hs.2, he⟩
    · obtain ⟨ip, hp⟩ := hs.2
      exact Or.inr ⟨ip, n, hp, hc⟩
  · rintro ⟨a, ha, h⟩
    refine ⟨a, ha, ?_⟩
    rcases h with ⟨ip, hp, he⟩ | ⟨ip, n, hp, hc⟩
    · refine Or.inl ⟨ip, ⟨?_, hp⟩, he⟩
      cases hs : stringsContains a "/" with
      | false => rfl
      | true => rw [hIP a hs] at hp; cases hp
    · refine Or.inr ⟨n, ⟨?_, ip, hp⟩, hc⟩
      cases hs : stringsContains a "/" with
      | true => rfl
      | false => rw [hCIDR a hs] at hp; cases hp

/-! ## Claims -/

/-- C1 (as the code has it): `TrySetState(new)` returns true and sets the state to
`new` exactly when the current state is Idle, or is Ringing and `new` is not
Ringing; otherwise it returns false and leaves the session unchanged.  A session
in Talking is never claimed and Ringing to Ringing fails. -/
theorem TrySetState_spec (s : ClientSession) (new : Int) :
    ((s.TrySetState new).1 = true ↔
      (s.State = StateIdle ∨ (s.State = StateRinging ∧ new ≠ StateRinging))) ∧
    ((s.TrySetState new).1 = true → (s.TrySetState new).2 = { s with State := new }) ∧
    ((s.TrySetState new).1 = false → (s.TrySetState new).2 = s) ∧
    (s.State = StateTalking → s.TrySetState new = (false, s)) ∧
    (s.State = StateRinging → s.TrySetState StateRinging = (false, s)) := by
  have hIR : StateIdle ≠ StateRinging := by decide
  have hTI : StateTalking ≠ StateIdle := by decide
  have hTR : StateTalking ≠ StateRinging := by decide
  unfold ClientSession.TrySetState
  refine ⟨?_, ?_, ?_, ?_, ?_⟩
  · by_cases h0 : s.State = StateIdle
    · simp [h0, hIR]
    · by_cases h1 : s.State = StateRinging
      · by_cases h2 : new = StateRinging <;> simp [h1, h2, hIR.symm]
      · simp [h0, h1]
  · exact TrySetState_changed s new
  · exact TrySetState_unchanged s new
  · intro h
    simp [h, hTI, hTR]
  · intro h
    simp [h, hIR.symm]

/-- C1 witness: a ringing session answers, and a talking session refuses. -/
theorem TrySetState_spec_witness :
    ((idleSession "1001" 1).TrySetState StateRinging).1 = true ∧
    (({ idleSession "1001" 1 with State := StateTalking }).TrySetState StateRinging).1 = false :=
  ⟨((TrySetState_spec (idleSession "1001" 1) StateRinging).1).2 (Or.inl rfl),
   by decide⟩

/-- C1 counterexample: from Ringing, `TrySetState(StateIdle)` returns true and
sets Idle, although the session is neither Idle nor asked for Talking. -/
theorem TrySetState_ringing_to_idle :
    (ringingSession.TrySetState StateIdle).1 = true ∧
    (ringingSession.TrySetState StateIdle).2.State
      = StateIdle ∧
    ¬ (ringingSession.State = StateIdle ∨
      (ringingSession.State = StateRinging ∧
        StateIdle = StateTalking)) := by
  decide

/-- C2: `Register` on a present extension fails with `BUSY` and leaves the
registry as it was; on an absent one it returns a fresh Idle session for `ext`,
installs it, and leaves every other entry as it was.  From the empty registry no
sequence of `Register` and `Unregister` calls yields two sessions for one
extension. -/
theorem Register_exclusive (r : ClientRegistry) (ext : String) (conn : WebsocketConn) :
    (∀ s, r.Get ext = some s →
      r.Register ext conn = (r, Except.error "BUSY") ∧
      (r.Register ext conn).1.Get ext = some s) ∧
    (r.Get ext = none →
      ∃ sess, (r.Register ext conn).2 = Except.ok sess ∧
        sess.Extension = ext ∧ sess.State = StateIdle ∧ sess.Conn = conn ∧
        sess.AudioFromBrowser = Chan.make String 100 ∧
        (r.Register ext conn).1.Get ext = some sess ∧
        ∀ e, e ≠ ext → (r.Register ext conn).1.Get e = r.Get e) ∧
    (∀ (cs : List RegistryCall) (e : String), (registry.calls cs).count e ≤ 1) := by
  refine ⟨?_, ?_, ?_⟩
  · intro s hs
    simp only [ClientRegistry.Get] at hs
    simp [ClientRegistry.Register, ClientRegistry.Get, hs]
  · intro hn
    simp only [ClientRegistry.Get] at hn
    refine ⟨⟨ext, conn, Chan.make String 100, Chan.make String 0, StateIdle⟩,
      by simp only [ClientRegistry.Register, hn], rfl, rfl, rfl, rfl, ?_, ?_⟩
    · simp [ClientRegistry.Register, ClientRegistry.Get, hn, mapSet, mapGet]
    · intro e he
      have hne : ext ≠ e := fun h => he h.symm
      simp [ClientRegistry.Register, ClientRegistry.Get, hn, mapSet, mapGet, hne,
        mapGet_mapDelete_ne _ _ _ he]
  · intro cs e
    exact count_calls_le_one cs registry (fun _ => Nat.zero_le _) e

/-- C2 witness: scenario S2, a second registration of `1001`. -/
theorem Register_exclusive_witness :
    twoIdle.Register "1001" ⟨7, []⟩ = (twoIdle, Except.error "BUSY") ∧
    (twoIdle.Register "1001" ⟨7, []⟩).1.Get "1001" = some (idleSession "1001" 1) :=
  (Register_exclusive twoIdle "1001" ⟨7, []⟩).1 (idleSession "1001" 1) (by decide)

/-- C3 (as the code has it): the origin predicate accepts a request exactly when
its Origin header is non-empty and equals some entry of the allow-list; with an
empty allow-list it accepts no request. -/
theorem CheckOrigin_spec (appConfig : Config) (origin : String) :
    (browserUpgrader_CheckOrigin appConfig origin = true ↔
      (origin ≠ "" ∧ origin ∈ appConfig.AllowedOrigins)) ∧
    (appConfig.AllowedOrigins = [] → browserUpgrader_CheckOrigin appConfig origin = false) := by
  unfold browserUpgrader_CheckOrigin
  constructor
  · by_cases h : origin = ""
    · simp [h]
    · simp [h, originLoop_iff]
  · intro he
    by_cases h : origin = ""
    · simp [h]
    · simp [h, he, originLoop]

/-- C3 witness: a listed origin is accepted. -/
theorem CheckOrigin_spec_witness :
    browserUpgrader_CheckOrigin
      { scenarioConfig "json" "" with AllowedOrigins := ["https://phone.example"] }
      "https://phone.example" = true :=
  (CheckOrigin_spec
    { scenarioConfig "json" "" with AllowedOrigins := ["https://phone.example"] }
    "https://phone.example").1.2 ⟨by decide, by decide⟩

/-- C3 counterexample: with an empty allow-list a request with an Origin header
is refused. -/
theorem CheckOrigin_empty_list_rejects :
    (scenarioConfig "json" "").AllowedOrigins = [] ∧
    browserUpgrader_CheckOrigin (scenarioConfig "json" "") "https://phone.example" = false := by
  decide

/-- C4 (as the code has it): every member collected by a ring-all call is
Ringing when the workers start.  A worker that is not elected winner and ends on
parent cancellation, or on an `ANSWER` that loses the race, leaves its member
Idle with `RINGING` then `HANGUP` written to the browser socket; one that ends on
a `HANGUP` token leaves its member Idle with only `RINGING` written. -/
theorem ringAllWorker_loser (s : ClientSession) (publish : PublishWake) :
    (∀ (r : ClientRegistry) (members : List String) (e : String),
      e ∈ (ringAllCollect members r).2 →
        ∃ m, (ringAllCollect members r).1.Get e = some m ∧ m.State = StateRinging) ∧
    (ringAllWorker s WorkerWake.done publish).2 = false ∧
    (ringAllWorker s WorkerWake.done publish).1.State = StateIdle ∧
    (ringAllWorker s WorkerWake.done publish).1.Conn.written
      = s.Conn.written ++ [ringingFrame, hangupFrame] ∧
    (ringAllWorker s (WorkerWake.control "ANSWER") PublishWake.done).2 = false ∧
    (ringAllWorker s (WorkerWake.control "ANSWER") PublishWake.done).1.State = StateIdle ∧
    (ringAllWorker s (WorkerWake.control "ANSWER") PublishWake.done).1.Conn.written
      = s.Conn.written ++ [ringingFrame, hangupFrame] ∧
    (ringAllWorker s (WorkerWake.control "HANGUP") publish).2 = false ∧
    (ringAllWorker s (WorkerWake.control "HANGUP") publish).1.State = StateIdle ∧
    (ringAllWorker s (WorkerWake.control "HANGUP") publish).1.Conn.written
      = s.Conn.written ++ [ringingFrame] ∧
    ((ringAllWorker s (WorkerWake.control "ANSWER") publish).2 = true ↔
      publish = PublishWake.accepted) := by
  have h1 : ("HANGUP" : String) ≠ "ANSWER" := by decide
  refine ⟨?_, rfl, rfl, ?_, rfl, rfl, ?_, ?_, ?_, ?_, ?_⟩
  · intro r members e he
    exact ringAllCollect_ringing members e r he
  · simp [ringAllWorker, ClientSession.writeText, ClientSession.ResetState,
      WebsocketConn.WriteMessage, ringingFrame, hangupFrame]
  · simp [ringAllWorker, ClientSession.writeText, ClientSession.ResetState,
      WebsocketConn.WriteMessage, ringingFrame, hangupFrame]
  · simp [ringAllWorker, h1]
  · simp [ringAllWorker, h1, ClientSession.writeText, ClientSession.ResetState]
  · simp [ringAllWorker, h1, ClientSession.writeText, ClientSession.ResetState,
      WebsocketConn.WriteMessage, ringingFrame]
  · cases publish <;> simp [ringAllWorker]

/-- C4 witness: session `1001`, rung and then cancelled by the parent, ends Idle
with `RINGING` and `HANGUP` written. -/
theorem ringAllWorker_loser_witness :
    (ringAllWorker ringingSession WorkerWake.done PublishWake.done).1.State = StateIdle ∧
    (ringAllWorker ringingSession WorkerWake.done PublishWake.done).1.Conn.written
      = [ringingFrame, hangupFrame] :=
  ⟨(ringAllWorker_loser ringingSession PublishWake.done).2.2.1,
   (ringAllWorker_loser ringingSession PublishWake.done).2.2.2.1⟩

/-- C4 counterexample: a rung member whose browser sends `HANGUP` is not the
winner, yet no `HANGUP` frame is written to its socket. -/
theorem ringAllWorker_hangup_token_no_frame :
    (ringAllWorker ringingSession
      (WorkerWake.control "HANGUP") PublishWake.done).2 = false ∧
    hangupFrame ∉ (ringAllWorker ringingSession
      (WorkerWake.control "HANGUP") PublishWake.done).1.Conn.written := by
  decide

/-- C6: a binary frame from the browser is appended to the audio queue when the
session is Talking and the queue holds fewer than 100 frames, and is dropped
otherwise; the queue never exceeds 100 frames, queued frames stay in place, and
the state is not changed. -/
theorem audio_queue_lossy_fifo (r r1 : ClientRegistry) (ext : String) (conn : WebsocketConn)
    (sess : ClientSession) (h : r.Register ext conn = (r1, Except.ok sess))
    (st : Int) (q : List String) (hq : q.length ≤ 100) (f : String) (w : Bool) :
    (handlePhoneMessage
        { sess with State := st, AudioFromBrowser := { sess.AudioFromBrowser with buf := q } }
        BinaryMessage f w).1.AudioFromBrowser.buf
      = (if st = StateTalking ∧ q.length < 100 then q ++ [f] else q) ∧
    (handlePhoneMessage
        { sess with State := st, AudioFromBrowser := { sess.AudioFromBrowser with buf := q } }
        BinaryMessage f w).1.AudioFromBrowser.buf.length ≤ 100 ∧
    q <+: (handlePhoneMessage
        { sess with State := st, AudioFromBrowser := { sess.AudioFromBrowser with buf := q } }
        BinaryMessage f w).1.AudioFromBrowser.buf ∧
    (handlePhoneMessage
        { sess with State := st, AudioFromBrowser := { sess.AudioFromBrowser with buf := q } }
        BinaryMessage f w).1.State = st := by
  have hcap : sess.AudioFromBrowser.cap = 100 := by
    unfold ClientRegistry.Register at h
    cases hg : mapGet r.sessions ext with
    | some s0 => simp [hg] at h
    | none =>
      simp only [hg, Prod.mk.injEq, Except.ok.injEq] at h
      rw [← h.2]
      rfl
  have hTB : TextMessage ≠ BinaryMessage := by decide
  have hbuf : (handlePhoneMessage
        { sess with State := st, AudioFromBrowser := { sess.AudioFromBrowser with buf := q } }
        BinaryMessage f w).1.AudioFromBrowser.buf
      = (if st = StateTalking ∧ q.length < 100 then q ++ [f] else q) := by
    simp only [handlePhoneMessage, ClientSession.GetState, Chan.trySend, hcap, if_true]
    by_cases h1 : st = StateTalking
    · by_cases h2 : q.length < 100 <;> simp [h1, h2]
    · simp [h1]
  have hst : (handlePhoneMessage
        { sess with State := st, AudioFromBrowser := { sess.AudioFromBrowser with buf := q } }
        BinaryMessage f w).1.State = st := by
    simp only [handlePhoneMessage, ClientSession.GetState, if_true]
    split_ifs <;> rfl
  refine ⟨hbuf, ?_, ?_, hst⟩
  · rw [hbuf]
    split_ifs with hc
    · simp only [List.length_append, List.length_singleton]
      omega
    · exact hq
  · rw [hbuf]
    split_ifs with hc
    · exact List.prefix_append q [f]
    · exact List.prefix_refl q

/-- C6 witness: a talking session with one queued frame takes a second one. -/
theorem audio_queue_lossy_fifo_witness :
    (handlePhoneMessage (talkingWith ["a"]) BinaryMessage "b" false).1.AudioFromBrowser.buf
      = ["a", "b"] :=
  (audio_queue_lossy_fifo registry
    { sessions := [("1001", idleSession "1001" 1)] } "1001" ⟨1, []⟩ (idleSession "1001" 1)
    rfl StateTalking ["a"] (by decide) "b" false).1

/-- C7: `checkIP` returns true exactly when the list is empty, or the host of the
remote address parses as an address that equals some single-address entry or
lies in some well-formed block entry; entries that do not parse are passed over,
and with a non-empty list an address that does not parse is refused.  The code
reads an entry as a block when it has a `/`; for a library whose address reader
rejects every string with a `/` and whose block reader rejects every string
without one, as in Go, that test drops out of the statement. -/
theorem checkIP_spec {IP IPNet : Type} (net : NetLib IP IPNet) (remoteAddr : String)
    (allowedList : List String) :
    (checkIP net remoteAddr allowedList = true ↔
      (allowedList = [] ∨
        ∃ targetIP, net.ParseIP (hostOf net remoteAddr) = some targetIP ∧
          ∃ allowed ∈ allowedList,
            (∃ ip, singleIPEntry net allowed ip ∧ net.Equal ip targetIP = true) ∨
            (∃ ipNet, cidrEntry net allowed ipNet ∧ net.Contains ipNet targetIP = true))) ∧
    ((∀ s, stringsContains s "/" = true → net.ParseIP s = none) →
      (∀ s, stringsContains s "/" = false → net.ParseCIDR s = none) →
      (checkIP net remoteAddr allowedList = true ↔
        (allowedList = [] ∨
          ∃ targetIP, net.ParseIP (hostOf net remoteAddr) = some targetIP ∧
            ∃ allowed ∈ allowedList,
              (∃ ip, net.ParseIP allowed = some ip ∧ net.Equal ip targetIP = true) ∨
              (∃ ip ipNet, net.ParseCIDR allowed = some (ip, ipNet) ∧
                net.Contains ipNet targetIP = true)))) ∧
    (allowedList ≠ [] → net.ParseIP (hostOf net remoteAddr) = none →
      checkIP net remoteAddr allowedList = false) ∧
    (hostOf net remoteAddr =
      match net.SplitHostPort remoteAddr with
      | some hp => hp.1
      | none => remoteAddr) := by
  refine ⟨?_, ?_, ?_, ?_⟩
  · unfold checkIP
    by_cases hl : allowedList = []
    · simp [hl]
    · have hlen : ¬ allowedList.length = 0 := by
        simpa [List.length_eq_zero] using hl
      simp only [hlen, if_false, hl, false_or]
      cases hp : net.ParseIP (hostOf net remoteAddr) with
      | none => simp
      | some targetIP =>
        simp only [Option.some.injEq, exists_eq_left']
        exact checkIPLoop_iff net targetIP allowedList
  · intro hIP hCIDR
    unfold checkIP
    by_cases hl : allowedList = []
    · simp [hl]
    · have hlen : ¬ allowedList.length = 0 := by
        simpa [List.length_eq_zero] using hl
      simp only [hlen, if_false, hl, false_or]
      cases hp : net.ParseIP (hostOf net remoteAddr) with
      | none => simp
      | some targetIP =>
        simp only [Option.some.injEq, exists_eq_left']
        exact checkIPLoop_iff_plain net hIP hCIDR targetIP allowedList
  · intro hl hp
    have hlen : ¬ allowedList.length = 0 := by
      simpa [List.length_eq_zero] using hl
    simp [checkIP, hlen, hp]
  · unfold hostOf
    cases net.SplitHostPort remoteAddr with
    | none => rfl
    | some hp => rfl

/-- C7 witness: with the dotted-quad library, an address inside the second block
of the list is admitted, and an address that does not parse is refused. -/
theorem checkIP_spec_witness :
    checkIP dottedQuadNet "192.168.1.7:5060" ["10.0.0.0/8", "192.168.1.0/24"] = true ∧
    checkIP dottedQuadNet "localhost:5060" ["10.0.0.0/8"] = false :=
  ⟨((checkIP_spec dottedQuadNet "192.168.1.7:5060" ["10.0.0.0/8", "192.168.1.0/24"]).2.1
      dottedQuadNet_ParseIP_slash dottedQuadNet_ParseCIDR_no_slash).2
      (Or.inr ⟨3232235783, by decide, "192.168.1.0/24", by simp,
        Or.inr ⟨3232235776, ⟨12625921, 24⟩, by decide, by decide⟩⟩),
   (checkIP_spec dottedQuadNet "localhost:5060" ["10.0.0.0/8"]).2.2.1 (by decide) (by decide)⟩

/-- C5 (as the code has it): in json framing, for a first frame that parses as a
document, the target is the value of the configured channel variable when that
value is non-empty; when the variable is absent or empty and the pattern
compiles, the target is capture group 1 of the pattern applied to
`connection_id`, empty when there is no such group; the frame is a media offer
exactly when its event is `MEDIA_START`; an empty target drops the connection. -/
theorem resolveFirstFrame_json {Regexp : Type} (appConfig : Config)
    (unmarshal : String → Option AsteriskJSONMessage) (re : RegexpLib Regexp)
    (msgStr : String) (jsonMsg : AsteriskJSONMessage)
    (hfmt : appConfig.AsteriskFormat = "json") (hdoc : unmarshal msgStr = some jsonMsg) :
    (lookupVariable jsonMsg.ChannelVariables appConfig.ExtensionVariable ≠ "" →
      resolveFirstFrame appConfig unmarshal re msgStr = Except.ok
        { targetExt := lookupVariable jsonMsg.ChannelVariables appConfig.ExtensionVariable
          isMediaStart := decide (jsonMsg.Event = "MEDIA_START") }) ∧
    (lookupVariable jsonMsg.ChannelVariables appConfig.ExtensionVariable = "" →
      ∀ r, re.Compile appConfig.ExtenSearchPattern = some r →
        resolveFirstFrame appConfig unmarshal re msgStr = Except.ok
          { targetExt := (re.FindStringSubmatch r jsonMsg.ConnectionID).getD 1 ""
            isMediaStart := decide (jsonMsg.Event = "MEDIA_START") }) ∧
    (hasVariable jsonMsg.ChannelVariables appConfig.ExtensionVariable = false →
      lookupVariable jsonMsg.ChannelVariables appConfig.ExtensionVariable = "") ∧
    (∀ f, resolveFirstFrame appConfig unmarshal re msgStr = Except.ok f →
      (droppedUnresolved f = true ↔ f.targetExt = "")) := by
  refine ⟨?_, ?_, ?_, ?_⟩
  · intro hv
    simp [resolveFirstFrame, hfmt, hdoc, hv]
  · intro hv r hr
    simp [resolveFirstFrame, hfmt, hdoc, hv, hr, captureGroupOne_eq]
  · exact lookupVariable_absent _ _
  · intro f _
    simp [droppedUnresolved]

/-- C5 witness: scenario S1 with the variable set, and with the variable absent. -/
theorem resolveFirstFrame_json_witness :
    resolveFirstFrame (scenarioConfig "json" "-(\\d+)-")
        (fun _ => some (scenarioDoc [("EXT", "1001")])) digitRegexp "frame"
      = Except.ok { targetExt := "1001", isMediaStart := true } ∧
    resolveFirstFrame (scenarioConfig "json" "-(\\d+)-")
        (fun _ => some (scenarioDoc [])) digitRegexp "frame"
      = Except.ok { targetExt := "1001", isMediaStart := true } :=
  ⟨(resolveFirstFrame_json (scenarioConfig "json" "-(\\d+)-")
      (fun _ => some (scenarioDoc [("EXT", "1001")])) digitRegexp "frame"
      (scenarioDoc [("EXT", "1001")]) rfl rfl).1 (by decide),
   rfl⟩

/-- C5 counterexample: the configured key is present in the mapping with an empty
value, and the target is taken from `connection_id` instead of that value. -/
theorem resolveFirstFrame_empty_value :
    hasVariable (scenarioDoc [("EXT", "")]).ChannelVariables
      (scenarioConfig "json" "-(\\d+)-").ExtensionVariable = true ∧
    lookupVariable (scenarioDoc [("EXT", "")]).ChannelVariables
      (scenarioConfig "json" "-(\\d+)-").ExtensionVariable = "" ∧
    resolveFirstFrame (scenarioConfig "json" "-(\\d+)-")
        (fun _ => some (scenarioDoc [("EXT", "")])) digitRegexp "frame"
      = Except.ok { targetExt := "1001", isMediaStart := true } :=
  ⟨by decide, by decide, rfl⟩

/-- C10 (the code at the failing input): when the search pattern does not
compile, resolution of a plain-text first frame, and of a document whose
configured variable is absent or empty, ends in a nil-pointer fault instead of an
empty target. -/
theorem resolveFirstFrame_compile_failure {Regexp : Type} (appConfig : Config)
    (unmarshal : String → Option AsteriskJSONMessage) (re : RegexpLib Regexp)
    (msgStr : String)
    (hjson : re.Compile appConfig.ExtenSearchPattern = none)
    (htext : re.Compile ("connection_id:" ++ appConfig.ExtenSearchPattern) = none) :
    (appConfig.AsteriskFormat ≠ "json" →
      resolveFirstFrame appConfig unmarshal re msgStr
        = Except.error Fault.nilPointerDereference) ∧
    (appConfig.AsteriskFormat = "json" → ∀ jsonMsg, unmarshal msgStr = some jsonMsg →
      lookupVariable jsonMsg.ChannelVariables appConfig.ExtensionVariable = "" →
      resolveFirstFrame appConfig unmarshal re msgStr
        = Except.error Fault.nilPointerDereference) := by
  constructor
  · intro hfmt
    simp [resolveFirstFrame, hfmt, htext]
  · intro hfmt jsonMsg hdoc hv
    simp [resolveFirstFrame, hfmt, hdoc, hv, hjson]

/-- C10 witness: the pattern `(` with a plain-text first frame. -/
theorem resolveFirstFrame_compile_failure_witness :
    resolveFirstFrame (scenarioConfig "text" "(") (fun _ => none) digitRegexp
        "MEDIA_START connection_id:1001"
      = Except.error Fault.nilPointerDereference :=
  (resolveFirstFrame_compile_failure (scenarioConfig "text" "(") (fun _ => none) digitRegexp
    "MEDIA_START connection_id:1001" (by decide) (by decide)).1 (by decide)

/-- C8: one pass of the sequential strategy visits the members in list order.  A
member that is not registered, or whose `TrySetState(StateRinging)` fails, is
skipped with the registry as it was.  A member that rings gets `RINGING`; on
`ANSWER` it is returned as winner, still Ringing, and no later member is
touched; on `HANGUP` it is reset to Idle with no further frame and the pass goes
on; on timeout it gets `HANGUP`, is reset to Idle and the pass goes on.  A write to
one member changes no other entry, sessions outside the member list are never
touched, and a returned winner is Ringing. -/
theorem sequentialPass_spec (env : Nat → WaitEvent) (r : ClientRegistry) (n : Nat)
    (ext : String) (rest : List String) :
    sequentialPass env [] r n = { registry := r, waits := n, winner := none } ∧
    (r.Get ext = none →
      sequentialPass env (ext :: rest) r n = sequentialPass env rest r n) ∧
    (∀ s, r.Get ext = some s → (s.TrySetState StateRinging).1 = false →
      sequentialPass env (ext :: rest) r n = sequentialPass env rest r n) ∧
    (∀ s, r.Get ext = some s → (s.TrySetState StateRinging).1 = true →
      (env n = WaitEvent.control "ANSWER" →
        sequentialPass env (ext :: rest) r n =
          { registry := r.store ext
              { s with State := StateRinging
                       Conn := ⟨s.Conn.id, s.Conn.written ++ [ringingFrame]⟩ }
            waits := n + 1
            winner := some
              { s with State := StateRinging
                       Conn := ⟨s.Conn.id, s.Conn.written ++ [ringingFrame]⟩ } }) ∧
      (env n = WaitEvent.control "HANGUP" →
        sequentialPass env (ext :: rest) r n =
          sequentialPass env rest
            (r.store ext
              { s with State := StateIdle
                       Conn := ⟨s.Conn.id, s.Conn.written ++ [ringingFrame]⟩ })
            (n + 1)) ∧
      (env n = WaitEvent.timeout →
        sequentialPass env (ext :: rest) r n =
          sequentialPass env rest
            (r.store ext
              { s with State := StateIdle
                       Conn := ⟨s.Conn.id, s.Conn.written ++ [ringingFrame, hangupFrame]⟩ })
            (n + 1))) ∧
    (∀ e s1, e ≠ ext → (r.store ext s1).Get e = r.Get e) ∧
    (∀ members e, e ∉ members → (sequentialPass env members r n).registry.Get e = r.Get e) ∧
    (∀ members w, (sequentialPass env members r n).winner = some w →
      w.State = StateRinging) := by
  have h1 : ("HANGUP" : String) ≠ "ANSWER" := by decide
  refine ⟨rfl, ?_, ?_, ?_, ?_, ?_, ?_⟩
  · intro hg
    rw [sequentialPass, hg]
  · intro s hg ht
    rw [sequentialPass, hg]
    simp only [ht, if_true]
    rw [TrySetState_unchanged s StateRinging ht, store_same r ext s hg]
  · intro s hg ht
    have hc := TrySetState_changed s StateRinging ht
    refine ⟨?_, ?_, ?_⟩
    · intro hev
      rw [sequentialPass, hg]
      simp [ht, hev, hc, ClientSession.writeText, WebsocketConn.WriteMessage, ringingFrame]
    · intro hev
      rw [sequentialPass, hg]
      simp [ht, hev, hc, h1, ClientSession.writeText, WebsocketConn.WriteMessage, ringingFrame,
        ClientSession.ResetState]
    · intro hev
      rw [sequentialPass, hg]
      simp [ht, hev, hc, ClientSession.writeText, WebsocketConn.WriteMessage, ringingFrame,
        hangupFrame, ClientSession.ResetState]
  · intro e s1 he
    exact Get_store_ne r ext e s1 he
  · intro members e he
    exact sequentialPass_untouched env members e he r n
  · intro members w hw
    exact sequentialPass_winner_ringing env members r n w hw

/-- C8 witness: scenario S4.  `1001` rings and times out, `1002` answers. -/
theorem sequentialPass_spec_witness :
    sequentialPass scenarioS4 ["1001", "1002"] twoIdle 0 =
      sequentialPass scenarioS4 ["1002"]
        (twoIdle.store "1001"
          { idleSession "1001" 1 with
            State := StateIdle
            Conn := ⟨1, [ringingFrame, hangupFrame]⟩ })
        1 ∧
    ((sequentialPass scenarioS4 ["1001", "1002"] twoIdle 0).winner.map
      (fun w => (w.Extension, w.State))) = some ("1002", StateRinging) :=
  ⟨((sequentialPass_spec scenarioS4 twoIdle 0 "1001" ["1002"]).2.2.2.1
      (idleSession "1001" 1) (by decide) (by decide)).2.2 rfl,
   by decide⟩

/-- C9 (the code at the failing input): when a rung member sends a control token
that is neither `ANSWER` nor `HANGUP`, the pass moves on to the next member and
leaves that member Ringing. -/
theorem sequentialPass_stray_token (env : Nat → WaitEvent) (r : ClientRegistry) (n : Nat)
    (ext cmd : String) (rest : List String) (s : ClientSession)
    (hg : r.Get ext = some s) (hidle : s.State = StateIdle)
    (hev : env n = WaitEvent.control cmd) (ha : cmd ≠ "ANSWER") (hh : cmd ≠ "HANGUP")
    (hrest : ext ∉ rest) :
    sequentialPass env (ext :: rest) r n =
      sequentialPass env rest
        (r.store ext (({ s with State := StateRinging } : ClientSession).writeText "RINGING"))
        (n + 1) ∧
    ∃ s1, (sequentialPass env (ext :: rest) r n).registry.Get ext = some s1 ∧
      s1.State = StateRinging := by
  have ht : (s.TrySetState StateRinging).1 = true :=
    TrySetState_of_idle s StateRinging hidle
  have hc := TrySetState_changed s StateRinging ht
  have hstep : sequentialPass env (ext :: rest) r n =
      sequentialPass env rest
        (r.store ext (({ s with State := StateRinging } : ClientSession).writeText "RINGING"))
        (n + 1) := by
    rw [sequentialPass, hg]
    simp [ht, hev, hc, ha, hh]
  refine ⟨hstep,
    ({ s with State := StateRinging } : ClientSession).writeText "RINGING", ?_, rfl⟩
  rw [hstep, sequentialPass_untouched env rest ext hrest]
  exact mapGet_mapStore_self r.sessions ext s _ hg

/-- C9 witness: `1001` sends `FOO` while ringing; `1002` then answers and `1001`
is still Ringing. -/
theorem sequentialPass_stray_token_witness :
    ∃ s1, (sequentialPass strayToken ["1001", "1002"] twoIdle 0).registry.Get "1001" = some s1 ∧
      s1.State = StateRinging :=
  (sequentialPass_stray_token strayToken twoIdle 0 "1001" "FOO" ["1002"]
    (idleSession "1001" 1) (by decide) (by decide) rfl (by decide) (by decide)
    (by decide)).2

end GoAstGateway
